import Mathlib

/-!
Verification of the stallion-analytics extraction-and-normalization pipeline.

This file gives a shallow embedding, in Lean 4, of the parts of the Python
source that the specification's claims are about:

* `FieldParser.parse_prize` and friends
  (src/scraping/parsers/field_parser.py),
* the payout validators (src/database/schemas/race_schema.py),
* bet-type normalization and payout-row extraction
  (src/scraping/extractors/race/race_detail_extractor.py),
* the result-row extractor's minimum-column guard (same file),
* the trainer / owner derived-rate computations
  (src/database/schemas/trainer_schema.py, owner_schema.py),
* the pedigree mating-edge merge
  (src/scraping/extractors/horse/pedigree_extractor.py together with
  storage/supabase_storage.py's relation persistence),
* the pagination loops (scrapers/race_scraper.py, jockey_scraper.py), and
* the batch driver `scrape_and_store_races` (scrapers/race_scraper.py).

Python strings are modelled as Lean `String`; machine integers are `Int`/`Nat`
(Python ints are unbounded, so no modular arithmetic is needed); `Decimal`
values are modelled as `Rat`; fallible Python expressions (those that can raise)
return `Except String _`, and "returns None" is `Option`.
-/

namespace Stallion

/-- Python's `\s` character class restricted to the ASCII whitespace characters
(space, tab, newline, carriage return, vertical tab, form feed); the inputs in
this development contain no other whitespace code points. -/
def isPySpace (c : Char) : Bool :=
  c = ' ' || c = '\t' || c = '\n' || c = '\r' || c = '\x0b' || c = '\x0c'

/-- Python `str.strip()` (with the whitespace set of `isPySpace`). -/
def pyStrip (s : String) : String :=
  String.mk (((s.data.dropWhile isPySpace).reverse.dropWhile isPySpace).reverse)

/-- Value of a list of decimal digits. -/
def digitsToNat (cs : List Char) : Nat :=
  cs.foldl (fun n c => 10 * n + (c.toNat - Char.toNat '0')) 0

/-- Python `int(s)`: an optional sign followed by at least one decimal digit
(surrounding whitespace is stripped); anything else raises `ValueError`.
(Python also accepts underscores between digits; no input in this code base
contains them, so they are not modelled.) -/
def pyInt (s : String) : Except String Int :=
  let t := pyStrip s
  match t.data with
  | [] => Except.error ("ValueError: invalid literal for int: " ++ s)
  | '-' :: rest =>
      if rest ≠ [] && rest.all Char.isDigit then Except.ok (-(digitsToNat rest : Int))
      else Except.error ("ValueError: invalid literal for int: " ++ s)
  | '+' :: rest =>
      if rest ≠ [] && rest.all Char.isDigit then Except.ok (digitsToNat rest : Int)
      else Except.error ("ValueError: invalid literal for int: " ++ s)
  | cs =>
      if cs.all Char.isDigit then Except.ok (digitsToNat cs : Int)
      else Except.error ("ValueError: invalid literal for int: " ++ s)

/-- Python `needle in hay` on strings (substring containment). -/
def containsSub (hay needle : String) : Bool :=
  (List.range (hay.data.length + 1)).any
    (fun i => needle.data.isPrefixOf (hay.data.drop i))

/-- Python `s.replace(",", "")`. -/
def removeCommas (s : String) : String :=
  String.mk (s.data.filter (fun c => c ≠ ','))

namespace FieldParser

/-- `re.search(r"(\d+)億", text)`: the earliest position at which a (greedy)
run of digits is immediately followed by the character 億; returns the digit
run.  Backtracking cannot shorten the run (a shorter run is followed by a
digit, not by 億), so taking the maximal run at each candidate start is exact. -/
def searchOkuGroup : List Char → Option (List Char)
  | [] => none
  | c :: rest =>
      if c.isDigit then
        let run := (c :: rest).takeWhile Char.isDigit
        match (c :: rest).dropWhile Char.isDigit with
        | '億' :: _ => some run
        | _ => searchOkuGroup rest
      else searchOkuGroup rest

/-- At a fixed start position, match `\d{1,4}` greedily (with backtracking)
against the literal suffix 万円: try 4, 3, 2, 1 digits. -/
def tryManAt (cs : List Char) : Nat → Option (List Char)
  | 0 => none
  | k + 1 =>
      let g := cs.take (k + 1)
      if g.length = k + 1 && g.all Char.isDigit &&
          ('万' :: '円' :: []).isPrefixOf (cs.drop (k + 1)) then
        some g
      else tryManAt cs k

/-- `re.search(r"(\d{1,4})万円", text)`: earliest start wins; at that start the
longest digit count (≤ 4) compatible with the following 万円 wins. -/
def searchManGroup : List Char → Option (List Char)
  | [] => none
  | c :: rest =>
      match tryManAt (c :: rest) 4 with
      | some g => some g
      | none => searchManGroup rest

/-- At a fixed start position, match `[\d,]+` greedily (with backtracking)
against the literal suffix 万円: try the maximal run length down to 1. -/
def tryCommaRunAt (cs : List Char) : Nat → Option (List Char)
  | 0 => none
  | k + 1 =>
      if ('万' :: '円' :: []).isPrefixOf (cs.drop (k + 1)) then some (cs.take (k + 1))
      else tryCommaRunAt cs k

/-- `re.search(r"([\d,]+)万円", text)`. -/
def searchCommaGroup : List Char → Option (List Char)
  | [] => none
  | c :: rest =>
      let run := (c :: rest).takeWhile (fun x => x.isDigit || x = ',')
      match tryCommaRunAt (c :: rest) run.length with
      | some g => some g
      | none => searchCommaGroup rest

/-- `FieldParser.parse_prize` (field_parser.py, lines 33-50).  Matches the
source line for line: if both 億 and 万円 occur, search `(\d+)億` and
`(\d{1,4})万円` and combine; else if 万円 occurs, search `([\d,]+)万円` and
parse the group with its commas removed; otherwise return 0.  The calls to
Python `int` are the only places a `ValueError` can escape (the method has no
try/except), hence the `Except` return type. -/
def parse_prize (text : String) : Except String Int :=
  let cs := text.data
  if containsSub text "億" && containsSub text "万円" then
    match searchOkuGroup cs, searchManGroup cs with
    | some okuG, some manG => do
        let oku ← pyInt (String.mk okuG)
        let man ← pyInt (removeCommas (String.mk manG))
        Except.ok (oku * 10000 + man)
    | _, _ => Except.ok 0
  else if containsSub text "万円" then
    match searchCommaGroup cs with
    | some g => do
        let v ← pyInt (removeCommas (String.mk g))
        Except.ok v
    | none => Except.ok 0
  else Except.ok 0

end FieldParser

/-! ## Payout validation (race_schema.py) -/

/-- `RacePayout` (race_schema.py, lines 128-149): `payout_amount` is a
`Decimal`, modelled as `Rat`; `popularity` is `Optional[int]`.  The
metadata-only fields `created_at`/`updated_at` play no role in validation and
are omitted. -/
structure RacePayout where
  race_id : String
  bet_type : String
  combination : String
  payout_amount : Rat
  popularity : Option Int
deriving DecidableEq, Repr

namespace RaceDataValidator

/-- Character class `[0-9\-→\s]` from the combination pre-check. -/
def isComboChar (c : Char) : Bool :=
  c.isDigit || c = '-' || c = '→' || isPySpace c

/-- `re.match(r"^[0-9\-→\s]+$", s)`: `re.match` anchors at the start, and the
`$` plus the fact that the whole pattern is a repeated single-character class
makes it a full match of a non-empty string. -/
def matchComboChars (s : String) : Bool :=
  s.data ≠ [] && s.data.all isComboChar

/-- `re.match(r"^\d+$", s)`. -/
def matchSingleNumber (s : String) : Bool :=
  s.data ≠ [] && s.data.all Char.isDigit

/-- Consume `\d+` at the head of the list: at least one digit, greedily.
Returns the remainder, or `none` when no digit is present. -/
def eatDigits1 (cs : List Char) : Option (List Char) :=
  match cs with
  | [] => none
  | c :: _ => if c.isDigit then some (cs.dropWhile Char.isDigit) else none

/-- Match `\s*SEP\s*` at the head of the list. -/
def eatSep (sep : Char) (cs : List Char) : Option (List Char) :=
  match cs.dropWhile isPySpace with
  | [] => none
  | c :: rest => if c = sep then some (rest.dropWhile isPySpace) else none

/-- `re.match(r"^\d+\s*SEP\s*\d+$", s)` for a single separator character. -/
def matchPair (sep : Char) (s : String) : Bool :=
  match eatDigits1 s.data with
  | none => false
  | some r1 =>
    match eatSep sep r1 with
    | none => false
    | some r2 =>
      match eatDigits1 r2 with
      | none => false
      | some r3 => r3 = []

/-- `re.match(r"^\d+\s*SEP\s*\d+\s*SEP\s*\d+$", s)`. -/
def matchTriple (sep : Char) (s : String) : Bool :=
  match eatDigits1 s.data with
  | none => false
  | some r1 =>
    match eatSep sep r1 with
    | none => false
    | some r2 =>
      match eatDigits1 r2 with
      | none => false
      | some r3 =>
        match eatSep sep r3 with
        | none => false
        | some r4 =>
          match eatDigits1 r4 with
          | none => false
          | some r5 => r5 = []

/-- Helper for `digitRuns`: walk the characters once, carrying the digits of
the current (reversed) run in `acc`; emit the run's value when it ends. -/
def digitRunsAux (acc : List Char) : List Char → List Nat
  | [] => if acc = [] then [] else [digitsToNat acc.reverse]
  | c :: rest =>
      if c.isDigit then digitRunsAux (c :: acc) rest
      else if acc = [] then digitRunsAux [] rest
      else digitsToNat acc.reverse :: digitRunsAux [] rest

/-- `re.findall(r"\d+", s)`: the maximal digit runs of `s`, as numbers. -/
def digitRuns (cs : List Char) : List Nat :=
  digitRunsAux [] cs

/-- `RaceDataValidator._validate_combination_format` (race_schema.py, lines
222-288).  The nine bet-type branches and the final 1-18 range check over
every embedded number, in source order.  Nothing in the body can raise, so the
surrounding `try/except` is dead and not modelled. -/
def validate_combination_format (bet_type : String) (combination : String) :
    List String :=
  if !matchComboChars combination then
    ["combination contains invalid characters: " ++ combination]
  else
    let fmtErrors :=
      if bet_type = "単勝" then
        if !matchSingleNumber (pyStrip combination) then
          ["単勝 combination must be a single number"] else []
      else if bet_type = "複勝" then
        if !matchSingleNumber (pyStrip combination) then
          ["複勝 combination must be a single number"] else []
      else if bet_type = "枠連" then
        if !matchPair '-' combination then
          ["枠連 combination must be in format '1 - 2'"] else []
      else if bet_type = "枠単" then
        if !matchPair '→' combination then
          ["枠単 combination must be in format '1 → 2'"] else []
      else if bet_type = "馬連" then
        if !matchPair '-' combination then
          ["馬連 combination must be in format '1 - 2'"] else []
      else if bet_type = "ワイド" then
        if !matchPair '-' combination then
          ["ワイド combination must be in format '1 - 2'"] else []
      else if bet_type = "馬単" then
        if !matchPair '→' combination then
          ["馬単 combination must be in format '1 → 2'"] else []
      else if bet_type = "三連複" then
        if !matchTriple '-' combination then
          ["三連複 combination must be in format '1 - 2 - 3'"] else []
      else if bet_type = "三連単" then
        if !matchTriple '→' combination then
          ["三連単 combination must be in format '1 → 2 → 3'"] else []
      else []
    let rangeErrors :=
      (digitRuns combination.data).filterMap (fun num =>
        if num < 1 || num > 18 then
          some ("Horse number " ++ toString num ++ " is out of valid range (1-18)")
        else none)
    fmtErrors ++ rangeErrors

/-- The canonical nine-member bet-type set of `validate_race_payout`. -/
def validBetTypes : List String :=
  ["単勝", "複勝", "枠連", "枠単", "馬連", "ワイド", "馬単", "三連複", "三連単"]

/-- `RaceDataValidator.validate_race_payout` (race_schema.py, lines 178-220).
Checks in source order: race-id length, bet-type membership, combination
non-empty (and non-blank), amount positive and below the `999999999.99`
ceiling, popularity in `[1, 99999]` when present, then the per-bet-type
combination format.  (`payout_amount` is a non-optional field of the
dataclass, so the `is None` branch is unreachable and not modelled.) -/
def validate_race_payout (payout : RacePayout) : List String :=
  let idErrors :=
    if payout.race_id = "" || payout.race_id.length ≠ 12 then
      ["race_id must be 12 characters"] else []
  let betTypeErrors :=
    if payout.bet_type ∉ validBetTypes then
      ["Invalid bet_type: " ++ payout.bet_type] else []
  let comboErrors :=
    if payout.combination = "" then ["combination is required"]
    else if pyStrip payout.combination = "" then ["combination cannot be empty"]
    else []
  let amountErrors :=
    if payout.payout_amount ≤ 0 then ["payout_amount must be positive"]
    else if payout.payout_amount > (99999999999 : Rat) / 100 then
      ["payout_amount is too large"]
    else []
  let popularityErrors :=
    match payout.popularity with
    | none => []
    | some p =>
        if p ≤ 0 then
          ["popularity must be 1 or greater (or None for unavailable data)"]
        else if p > 99999 then ["popularity is too large"]
        else []
  idErrors ++ betTypeErrors ++ comboErrors ++ amountErrors ++ popularityErrors
    ++ validate_combination_format payout.bet_type payout.combination

end RaceDataValidator

/-! ## Derived rate statistics (trainer_schema.py, owner_schema.py) -/

/-- Round-half-even to an integer, the rounding rule of Python's built-in
`round`. -/
def halfEvenRound (x : Rat) : Int :=
  if x - ⌊x⌋ < 1 / 2 then ⌊x⌋
  else if 1 / 2 < x - ⌊x⌋ then ⌊x⌋ + 1
  else if Even ⌊x⌋ then ⌊x⌋ else ⌊x⌋ + 1

/-- Python `round(x, 2)`: round-half-even at two decimal places.  The Python
code computes with binary floats before rounding; the claims proved below
(definitional equality of the rate fields with the rounding formula, and
monotonicity of rounding) are insensitive to that representation, so the
computation is modelled exactly over `Rat`. -/
def pyRound2 (x : Rat) : Rat :=
  (halfEvenRound (x * 100) : Rat) / 100

/-- `Trainer` (trainer_schema.py, lines 7-39), restricted to the career-count
and rate fields that `update_stats` reads and writes.  The dataclass defaults
every count to `0` and every rate to `Decimal("0.0")`; the identity, profile,
JSONB and timestamp fields are carried but never touched by the statistics
methods, so they are represented by the `trainer_id`/`name_ja` pair. -/
structure Trainer where
  trainer_id : String
  name_ja : String
  total_races : Nat
  wins : Nat
  seconds : Nat
  thirds : Nat
  win_rate : Rat
  second_rate : Rat
  show_rate : Rat
deriving DecidableEq, Repr

namespace Trainer

/-- `Trainer.calculate_win_rate` (trainer_schema.py, lines 41-45): the guard
`if self.total_races and self.total_races > 0` is truthiness on an `int`,
i.e. `total_races > 0`. -/
def calculate_win_rate (t : Trainer) : Rat :=
  if 0 < t.total_races then pyRound2 ((t.wins : Rat) / t.total_races * 100)
  else 0

/-- `Trainer.calculate_second_rate` (lines 47-52). -/
def calculate_second_rate (t : Trainer) : Rat :=
  if 0 < t.total_races then
    pyRound2 (((t.wins + t.seconds : Nat) : Rat) / t.total_races * 100)
  else 0

/-- `Trainer.calculate_show_rate` (lines 54-59). -/
def calculate_show_rate (t : Trainer) : Rat :=
  if 0 < t.total_races then
    pyRound2 (((t.wins + t.seconds + t.thirds : Nat) : Rat) / t.total_races * 100)
  else 0

/-- `Trainer.update_stats` (lines 61-65). -/
def update_stats (t : Trainer) : Trainer :=
  { t with
    win_rate := t.calculate_win_rate
    second_rate := t.calculate_second_rate
    show_rate := t.calculate_show_rate }

end Trainer

/-- `Owner` (owner_schema.py, lines 7-46), restricted in the same way as
`Trainer`; its three rate calculators (lines 48-66) and `update_stats`
(lines 74-78) are verbatim copies of the trainer's. -/
structure Owner where
  owner_id : String
  name_ja : String
  total_races : Nat
  wins : Nat
  seconds : Nat
  thirds : Nat
  win_rate : Rat
  second_rate : Rat
  show_rate : Rat
deriving DecidableEq, Repr

namespace Owner

/-- `Owner.calculate_win_rate` (owner_schema.py, lines 48-52). -/
def calculate_win_rate (o : Owner) : Rat :=
  if 0 < o.total_races then pyRound2 ((o.wins : Rat) / o.total_races * 100)
  else 0

/-- `Owner.calculate_second_rate` (lines 54-59). -/
def calculate_second_rate (o : Owner) : Rat :=
  if 0 < o.total_races then
    pyRound2 (((o.wins + o.seconds : Nat) : Rat) / o.total_races * 100)
  else 0

/-- `Owner.calculate_show_rate` (lines 61-66). -/
def calculate_show_rate (o : Owner) : Rat :=
  if 0 < o.total_races then
    pyRound2 (((o.wins + o.seconds + o.thirds : Nat) : Rat) / o.total_races * 100)
  else 0

/-- `Owner.update_stats` (lines 74-78). -/
def update_stats (o : Owner) : Owner :=
  { o with
    win_rate := o.calculate_win_rate
    second_rate := o.calculate_second_rate
    show_rate := o.calculate_show_rate }

end Owner

/-! ## Bet-type normalization and payout rows (race_detail_extractor.py) -/

/-- `RaceResult` (race_schema.py, lines 65-96), with `Decimal` as `Rat`; the
`created_at`/`updated_at` timestamps are never set by the extractor and are
omitted. -/
structure RaceResult where
  race_id : String
  horse_id : String
  horse_name : String
  bracket_number : Int
  horse_number : Int
  age : Int
  sex : String
  jockey_weight : Rat
  jockey_name : String
  trainer_name : String
  finish_position : Option Int
  jockey_id : Option String
  trainer_region : Option String
  trainer_id : Option String
  race_time : Option String
  time_diff : Option String
  passing_order : Option String
  last_3f : Option Rat
  odds : Option Rat
  popularity : Option Int
  horse_weight : Option Int
  weight_change : Option Int
  prize_money : Option Rat
  owner_id : Option String
  owner_name : Option String
deriving DecidableEq, Repr

namespace RaceDetailExtractor

/-- The text-to-canonical-label table of `_normalize_bet_type` (lines
609-619); every entry maps a label to itself. -/
def textMapping : List (String × String) :=
  [("単勝", "単勝"), ("複勝", "複勝"), ("枠連", "枠連"), ("枠単", "枠単"),
   ("馬連", "馬連"), ("ワイド", "ワイド"), ("馬単", "馬単"),
   ("三連複", "三連複"), ("三連単", "三連単")]

/-- The CSS-class fallback table of `_normalize_bet_type` (lines 626-635). -/
def classMapping : List (String × String) :=
  [("tan", "単勝"), ("fuku", "複勝"), ("waku", "枠連"), ("uren", "馬連"),
   ("wide", "ワイド"), ("utan", "馬単"), ("sanfuku", "三連複"),
   ("santan", "三連単")]

/-- The `for css_class in css_classes` loop of `_normalize_bet_type` (lines
637-645): the first class present in the table decides; the ambiguous `waku`
class is resolved by testing whether the display text contains the substring
枠単. -/
def classLoop (betTextClean : String) : List String → Option String
  | [] => none
  | cssClass :: rest =>
      match (classMapping.find? (fun e => e.1 = cssClass)).map Prod.snd with
      | none => classLoop betTextClean rest
      | some mapped =>
          if cssClass = "waku" then
            if containsSub betTextClean "枠単" then some "枠単" else some "枠連"
          else some mapped

/-- `RaceDetailExtractor._normalize_bet_type` (race_detail_extractor.py, lines
604-647): exact text match against the canonical label set first, CSS-class
fallback second, `none` when neither matches. -/
def normalize_bet_type (betText : String) (cssClasses : List String) :
    Option String :=
  let betTextClean := pyStrip betText
  match (textMapping.find? (fun e => e.1 = betTextClean)).map Prod.snd with
  | some mapped => some mapped
  | none => classLoop betTextClean cssClasses

/-- Modelled from the spec for comparison only (claim C6): the spec's stated
disambiguation rule for the ambiguous CSS class, "check whether the row's
display text contains the distinguishing arrow glyph" (the → of the ordered
bracket-exacta combinations), in place of the source's substring test for the
label 枠単.  Identical to `normalize_bet_type` otherwise. -/
def classLoopSpecArrow (betTextClean : String) : List String → Option String
  | [] => none
  | cssClass :: rest =>
      match (classMapping.find? (fun e => e.1 = cssClass)).map Prod.snd with
      | none => classLoopSpecArrow betTextClean rest
      | some mapped =>
          if cssClass = "waku" then
            if containsSub betTextClean "→" then some "枠単" else some "枠連"
          else some mapped

/-- Modelled from the spec for comparison only (claim C6): bet-type
resolution with the spec's arrow-glyph disambiguation. -/
def normalize_bet_type_specArrow (betText : String) (cssClasses : List String) :
    Option String :=
  let betTextClean := pyStrip betText
  match (textMapping.find? (fun e => e.1 = betTextClean)).map Prod.snd with
  | some mapped => some mapped
  | none => classLoopSpecArrow betTextClean cssClasses

/-- Python `Decimal(s)` on the plain decimal notations this code base feeds
it: an optional sign, then digits with an optional fraction part (at least one
digit overall).  Exponent and special forms never occur here and are not
modelled; an unparsable string is `none` (the callers catch
`InvalidOperation`). -/
def pyDecimal (s : String) : Option Rat :=
  let core (cs : List Char) : Option Rat :=
    let intPart := cs.takeWhile Char.isDigit
    match cs.drop intPart.length with
    | [] => if intPart = [] then none else some (digitsToNat intPart : Rat)
    | '.' :: frac =>
        if frac.all Char.isDigit && (intPart ≠ [] || frac ≠ []) then
          some ((digitsToNat intPart : Rat) +
            (digitsToNat frac : Rat) / ((10 : Rat) ^ frac.length))
        else none
    | _ => none
  match s.data with
  | '-' :: rest => (core rest).map (fun x => -x)
  | '+' :: rest => core rest
  | cs => core cs

/-- `RaceDetailExtractor._parse_int` (race_detail_extractor.py, lines
664-672): strip, empty → `None`, else Python `int` with the `ValueError`
caught to `None`. -/
def rdParseInt (text : String) : Option Int :=
  (pyInt text).toOption

/-- `RaceDetailExtractor._parse_decimal` (lines 675-681): strip, drop commas,
empty → `None`, else `Decimal` with failures caught to `None`. -/
def rdParseDecimal (text : String) : Option Rat :=
  let cleaned := removeCommas (pyStrip text)
  if cleaned = "" then none else pyDecimal cleaned

/-- `RaceDetailExtractor._parse_sex_age` (lines 683-693):
`re.match(r"([牡牝セ])(\d+)", s.strip())`, a prefix match. -/
def parse_sex_age (s : String) : Option String × Option Int :=
  match (pyStrip s).data with
  | [] => (none, none)
  | c :: rest =>
      if c = '牡' || c = '牝' || c = 'セ' then
        let ds := rest.takeWhile Char.isDigit
        if ds ≠ [] then (some (String.mk [c]), some (digitsToNat ds : Int))
        else (none, none)
      else (none, none)

/-- `RaceDetailExtractor._parse_horse_weight` (lines 695-705):
`re.match(r"(\d+)\(([+-]?\d+)\)", s.strip())`, a prefix match. -/
def parse_horse_weight (s : String) : Option Int × Option Int :=
  let cs := (pyStrip s).data
  let ds := cs.takeWhile Char.isDigit
  if ds = [] then (none, none)
  else
    match cs.drop ds.length with
    | '(' :: rest =>
        let signRest : Int × List Char :=
          match rest with
          | '+' :: r => (1, r)
          | '-' :: r => (-1, r)
          | r => (1, r)
        let ds2 := signRest.2.takeWhile Char.isDigit
        if ds2 = [] then (none, none)
        else
          match signRest.2.drop ds2.length with
          | ')' :: _ =>
              (some (digitsToNat ds : Int), some (signRest.1 * digitsToNat ds2))
          | _ => (none, none)
    | _ => (none, none)

/-- Scan for the literal `lit`, then capture the following non-empty
`[a-zA-Z0-9]+` run; a literal occurrence followed by no alphanumeric
character is skipped (the regex engine moves to the next start). -/
def searchIdAux (lit : List Char) : List Char → Option String
  | [] => none
  | l@(_ :: rest) =>
      if lit.isPrefixOf l then
        let run := (l.drop lit.length).takeWhile Char.isAlphanum
        if run ≠ [] then some (String.mk run) else searchIdAux lit rest
      else searchIdAux lit rest

/-- `RaceDetailExtractor._extract_id_from_url` (lines 707-746, the live body
after the commented-out legacy variant): an entity-specific
`/(entity path)/([a-zA-Z0-9]+)/?` search; the optional trailing slash does not
affect the captured group. -/
def extract_id_from_url (href : String) (entityType : String) : Option String :=
  if entityType = "horse" then searchIdAux ("/horse/").data href.data
  else if entityType = "jockey" then
    searchIdAux ("/jockey/result/recent/").data href.data
  else if entityType = "trainer" then
    searchIdAux ("/trainer/result/recent/").data href.data
  else if entityType = "owner" then
    searchIdAux ("/owner/result/recent/").data href.data
  else none

/-- One table cell of a parsed document row: its flattened text (with the
newline separators `get_text(separator="\n")` inserts), its CSS classes, and
its first anchor descendant, if any, as an (href, link text) pair. -/
structure Cell where
  text : String
  classes : List String
  link : Option (String × String)
deriving DecidableEq, Repr, Inhabited

/-- `re.search(r"\[(東|西)\]", text)`: first bracketed east/west marker. -/
def searchRegion : List Char → Option String
  | [] => none
  | l@(_ :: rest) =>
      if ('[' :: '東' :: ']' :: []).isPrefixOf l then some "東"
      else if ('[' :: '西' :: ']' :: []).isPrefixOf l then some "西"
      else searchRegion rest

/-- `RaceDetailExtractor._extract_trainer_info` (lines 462-480). -/
def extract_trainer_info (cells : List Cell) (index : Nat) :
    String × Option String × Option String :=
  if index < cells.length then
    let cell := cells.getD index default
    let nameId : String × Option String :=
      match cell.link with
      | some l => (pyStrip l.2, extract_id_from_url l.1 "trainer")
      | none => ("", none)
    (nameId.1, searchRegion cell.text.data, nameId.2)
  else ("", none, none)

/-- `RaceDetailExtractor._extract_owner_info` (lines 482-494). -/
def extract_owner_info (cells : List Cell) (index : Nat) :
    String × Option String :=
  if index < cells.length then
    let cell := cells.getD index default
    match cell.link with
    | some l => (pyStrip l.2, extract_id_from_url l.1 "owner")
    | none => ("", none)
  else ("", none)

/-- Python `str(x)` for an `Optional[int]` interpolated into an f-string:
`None` prints as the four letters `None`. -/
def strOfOptInt : Option Int → String
  | none => "None"
  | some n => toString n

/-- `RaceDetailExtractor._extract_race_result_row` (race_detail_extractor.py,
lines 245-332).  Rows with fewer than 15 cells return `None`; otherwise every
column is read exactly as the source does, with the `len(cells) > k` guards
kept even where the minimum makes them vacuous.  `x or d` on an
`Optional[int]` maps `None` (and the equal-valued falsy `0`) to `d`. -/
def extract_race_result_row (cells : List Cell) (raceId : String) :
    Option RaceResult :=
  if cells.length < 15 then none
  else
    let cell (i : Nat) : Cell := cells.getD i default
    let finish_position := rdParseInt (cell 0).text
    let bracket_number := rdParseInt (cell 1).text
    let horse_number := rdParseInt (cell 2).text
    let horse_name :=
      match (cell 3).link with
      | some l => pyStrip l.2
      | none => pyStrip (cell 3).text
    let horse_id :=
      match (cell 3).link with
      | some l => extract_id_from_url l.1 "horse"
      | none => none
    let sexAge := parse_sex_age (cell 4).text
    let jockey_weight := rdParseDecimal (cell 5).text
    let jockey_name :=
      match (cell 6).link with
      | some l => pyStrip l.2
      | none => pyStrip (cell 6).text
    let jockey_id :=
      match (cell 6).link with
      | some l => extract_id_from_url l.1 "jockey"
      | none => none
    let race_time := pyStrip (cell 7).text
    let time_diff := pyStrip (cell 8).text
    let passing_order :=
      if 10 < cells.length then some (pyStrip (cell 10).text) else none
    let last_3f :=
      if 11 < cells.length then rdParseDecimal (cell 11).text else none
    let odds :=
      if 12 < cells.length then rdParseDecimal (cell 12).text else none
    let popularity :=
      if 13 < cells.length then rdParseInt (cell 13).text else none
    let weightPair :=
      if 14 < cells.length then parse_horse_weight (cell 14).text
      else (none, none)
    let trainerInfo := extract_trainer_info cells 18
    let ownerInfo := extract_owner_info cells 19
    let prize_money :=
      if 20 < cells.length then rdParseDecimal (cell 20).text else none
    some
      { race_id := raceId
        horse_id :=
          match horse_id with
          | some h => h
          | none => "UNKNOWN_" ++ raceId ++ "_" ++ strOfOptInt horse_number
        horse_name := horse_name
        finish_position := finish_position
        bracket_number := (bracket_number.getD 0)
        horse_number := (horse_number.getD 0)
        age := (sexAge.2.getD 0)
        sex := (sexAge.1.getD "不明")
        jockey_weight := (jockey_weight.getD 0)
        jockey_id := jockey_id
        jockey_name := jockey_name
        trainer_region := trainerInfo.2.1
        trainer_id := trainerInfo.2.2
        trainer_name := trainerInfo.1
        race_time := some race_time
        time_diff := some time_diff
        passing_order := passing_order
        last_3f := last_3f
        odds := odds
        popularity := popularity
        horse_weight := weightPair.1
        weight_change := weightPair.2
        prize_money := prize_money
        owner_id := ownerInfo.2
        owner_name := some ownerInfo.1 }

/-- Full-width digit to ASCII digit, as in
`str.maketrans("０１２３４５６７８９", "0123456789")`. -/
def fullWidthDigit (c : Char) : Char :=
  if '０' ≤ c && c ≤ '９' then
    Char.ofNat (c.toNat - Char.toNat '０' + Char.toNat '0')
  else c

/-- `re.sub(r"\s+", " ", s)`: collapse every whitespace run to one space. -/
def collapseSpacesAux : Bool → List Char → List Char
  | _, [] => []
  | inRun, c :: rest =>
      if isPySpace c then
        if inRun then collapseSpacesAux true rest
        else ' ' :: collapseSpacesAux true rest
      else c :: collapseSpacesAux false rest

/-- Python `s.replace(old, new)` for a non-empty `old`: leftmost,
non-overlapping occurrences.  The fuel argument (the input length) only
bounds the recursion; it never runs out, since every step consumes at least
one character. -/
def replaceSubAux (pat rep : List Char) : Nat → List Char → List Char
  | 0, l => l
  | _ + 1, [] => []
  | fuel + 1, l@(c :: rest) =>
      if pat.isPrefixOf l then rep ++ replaceSubAux pat rep fuel (l.drop pat.length)
      else c :: replaceSubAux pat rep fuel rest

/-- Python `s.replace(old, new)`, `old` non-empty. -/
def replaceSub (s pat rep : String) : String :=
  String.mk (replaceSubAux pat.data rep.data s.data.length s.data)

/-- `RaceDetailExtractor._normalize_combination` (race_detail_extractor.py,
lines 649-660): full-width digits to half width, whitespace runs to single
spaces, `->` (and the identity rewrite of →) to →, then strip. -/
def normalize_combination (combinationText : String) : String :=
  let c1 := String.mk (combinationText.data.map fullWidthDigit)
  let c2 := String.mk (collapseSpacesAux false c1.data)
  let c3 := replaceSub (replaceSub c2 "→" "→") "->" "→"
  pyStrip c3

/-- The `get_text(separator="\n", strip=True)`-plus-split step of
`_extract_payout_row` (lines 546-553): split the cell text on newlines, strip
each piece, keep the non-empty ones. -/
def splitClean (s : String) : List String :=
  ((s.splitOn "\n").map pyStrip).filter (fun p => p ≠ "")

/-- One iteration of the `for i in range(len(combinations))` loop of
`_extract_payout_row` (lines 556-595): `payout_amounts[i]` raises
`IndexError` past the end, which the inner `except` turns into `continue`;
non-numeric amounts, non-positive amounts and empty combinations are skipped;
a missing popularity entry becomes the empty string, hence `None`. -/
def payoutAt (raceId betType : String) (combos amounts pops : List String)
    (i : Nat) : Option RacePayout :=
  match combos.get? i with
  | none => none
  | some comboRaw =>
    let combination := normalize_combination comboRaw
    match amounts.get? i with
    | none => none
    | some amountRaw =>
      let payoutText := pyStrip (removeCommas amountRaw)
      if !RaceDataValidator.matchSingleNumber payoutText then none
      else
        match rdParseDecimal payoutText with
        | none => none
        | some amount =>
          let popularityStr := (pops.get? i).getD ""
          let popularity := rdParseInt popularityStr
          if amount ≤ 0 then none
          else if combination = "" then none
          else some
            { race_id := raceId, bet_type := betType,
              combination := combination, payout_amount := amount,
              popularity := popularity }

/-- `RaceDetailExtractor._extract_payout_row` (race_detail_extractor.py,
lines 529-601): fewer than four cells, or an unresolvable bet type, yields no
payouts; otherwise the parallel combination/amount/popularity lists are
zipped by index. -/
def extract_payout_row (cells : List Cell) (raceId : String) :
    List RacePayout :=
  if cells.length < 4 then []
  else
    let betTypeElem := cells.getD 0 default
    match normalize_bet_type (pyStrip betTypeElem.text) betTypeElem.classes with
    | none => []
    | some betType =>
        let combinations := splitClean (cells.getD 1 default).text
        let payoutAmounts := splitClean (cells.getD 2 default).text
        let popularities := splitClean (cells.getD 3 default).text
        (List.range combinations.length).filterMap
          (payoutAt raceId betType combinations payoutAmounts popularities)

end RaceDetailExtractor

/-! ## Race model, remaining validators, and the detail-scrape validation
pass (race_schema.py, race_scraper.py) -/

/-- `Race` (race_schema.py, lines 12-38): `date`/`time` values are carried as
their ISO text, `Decimal` as `Rat`, the JSONB maps as association lists; the
`created_at`/`updated_at` metadata is omitted. -/
structure Race where
  race_id : String
  race_date : String
  track_name : String
  race_number : Int
  race_name : String
  distance : Int
  track_type : String
  total_horses : Int
  grade : Option String
  track_direction : Option String
  weather : Option String
  track_condition : Option String
  start_time : Option String
  winning_time : Option String
  pace : Option String
  prize_1st : Option Rat
  race_class : Option String
  race_conditions : Option String
  corner_positions : Option (List (String × String))
  lap_data : Option (List (String × String))
deriving DecidableEq, Repr

namespace RaceDataValidator

/-- `RaceDataValidator.validate_race` (race_schema.py, lines 155-163). -/
def validate_race (race : Race) : List String :=
  if race.race_id = "" || race.race_id.length ≠ 12 then
    ["race_id must be 12 characters"]
  else []

/-- `RaceDataValidator.validate_race_result` (race_schema.py, lines
165-176). -/
def validate_race_result (result : RaceResult) : List String :=
  (if result.race_id = "" || result.race_id.length ≠ 12 then
    ["race_id must be 12 characters"]
  else []) ++
  (if result.horse_id = "" then ["horse_id is required"] else [])

/-- The duplicate-(bet_type, combination) scan of
`validate_payout_consistency` (race_schema.py, lines 301-307). -/
def dupScan : List RacePayout → List (String × String) → List String
  | [], _ => []
  | p :: rest, seen =>
      let key := (p.bet_type, p.combination)
      if key ∈ seen then
        ("Duplicate payout: " ++ p.bet_type ++ " " ++ p.combination)
          :: dupScan rest (key :: seen)
      else dupScan rest (key :: seen)

/-- `RaceDataValidator.validate_payout_consistency` (race_schema.py, lines
290-319): mixed race ids, duplicate (bet_type, combination) pairs, and the
missing-basic-bet-types warning. -/
def validate_payout_consistency (payouts : List RacePayout) : List String :=
  (if 1 < ((payouts.map (fun p => p.race_id)).dedup).length then
    ["Mixed race_ids in payout data"]
  else []) ++
  dupScan payouts [] ++
  (if "単勝" ∉ payouts.map (fun p => p.bet_type) ||
      "複勝" ∉ payouts.map (fun p => p.bet_type) then
    ["Warning: Missing basic bet types"]
  else [])

end RaceDataValidator

namespace RaceScraper

/-- The validate-and-return tail of `RaceScraper.scrape_race_detail`
(race_scraper.py, lines 232-263), the part of the method downstream of the
external fetch and extraction: given what `extract_race_detail` returned, run
the four validators, collect their violation strings (the source only logs
them), and pass the extracted triple through unchanged.  Returns the method's
return value paired with the collected warnings. -/
def scrape_race_detail_validate
    (raceData : Option (Race × List RaceResult × List RacePayout)) :
    Option (Race × List RaceResult × List RacePayout) × List String :=
  match raceData with
  | none => (none, ["No race data extracted"])
  | some (race, results, payouts) =>
      let raceErrors := RaceDataValidator.validate_race race
      let resultErrors :=
        results.flatMap (fun r => RaceDataValidator.validate_race_result r)
      let payoutErrors :=
        payouts.flatMap (fun p => RaceDataValidator.validate_race_payout p)
      let consistencyErrors :=
        if payouts ≠ [] then
          RaceDataValidator.validate_payout_consistency payouts
        else []
      (some (race, results, payouts),
        raceErrors ++ resultErrors ++ payoutErrors ++ consistencyErrors)

end RaceScraper

/-! ## Pedigree mating-edge merge (pedigree_extractor.py,
supabase_storage.py) -/

/-- A persisted `horse_relations` row: the database-assigned primary key `id`
plus the four columns the code reads and writes.  `children_ids` is a
nullable JSON list. -/
structure HorseRelation where
  id : Nat
  horse_a_id : String
  horse_b_id : String
  relation_type : String
  children_ids : Option (List String)
deriving DecidableEq, Repr

/-- The unordered relation row to be inserted (a Python dict without an `id`;
the database assigns one on insert). -/
structure RelationData where
  horse_a_id : String
  horse_b_id : String
  relation_type : String
  children_ids : Option (List String)
deriving DecidableEq, Repr

/-- Project a persisted row onto the four columns `save_relations` reads
(its `clean_relation` dict). -/
def HorseRelation.toData (r : HorseRelation) : RelationData :=
  ⟨r.horse_a_id, r.horse_b_id, r.relation_type, r.children_ids⟩

/-- The `horse_relations` table, in insertion order. -/
abbrev RelationDB := List HorseRelation

/-- A fresh serial primary key for an insert. -/
def freshId (db : RelationDB) : Nat :=
  (db.map (fun r => r.id)).foldr max 0 + 1

namespace PedigreeExtractor

/-- The filter of one directed `find_existing_mating` query:
`horse_a_id = a`, `horse_b_id = b`, `relation_type = 'mating'`. -/
def isMatingFor (a b : String) (r : HorseRelation) : Bool :=
  r.horse_a_id = a && r.horse_b_id = b && r.relation_type = "mating"

/-- `PedigreeExtractor.find_existing_mating` (pedigree_extractor.py, lines
192-219): query `(sire, dam)` first, then the reverse `(dam, sire)`; return
the first row of whichever query matched. -/
def find_existing_mating (sireId damId : String) (db : RelationDB) :
    Option HorseRelation :=
  match (db.filter (isMatingFor sireId damId)).head? with
  | some r => some r
  | none => (db.filter (isMatingFor damId sireId)).head?

/-- `PedigreeExtractor.add_child_to_mating` (lines 221-250): when the horse is
already among the children, return the row unchanged and touch nothing; when
it is not, append it and update the row with that `id` in the table.  A
vanished `id` makes the update match no row, and the method falls through to
return `None`.  Returns the method's return value paired with the updated
table. -/
def add_child_to_mating (existing : HorseRelation) (horseId : String)
    (db : RelationDB) : Option HorseRelation × RelationDB :=
  let current := existing.children_ids.getD []
  if horseId ∈ current then (some existing, db)
  else
    let updatedChildren := current ++ [horseId]
    let db2 := db.map (fun r =>
      if r.id = existing.id then { r with children_ids := some updatedChildren }
      else r)
    if db.any (fun r => r.id = existing.id) then
      (some { existing with children_ids := some updatedChildren }, db2)
    else (none, db2)

/-- `PedigreeExtractor.create_mating_relations` (lines 162-190), for a
connected storage: nothing happens unless both sire and dam are known; an
existing edge (in either orientation) absorbs the child in place; otherwise a
new relation dict with `children_ids = [horse]` is returned for insertion.
Returns the method's relation list paired with the updated table. -/
def create_mating_relations (sireId damId : Option String) (horseId : String)
    (db : RelationDB) : List RelationData × RelationDB :=
  match sireId, damId with
  | some sire, some dam =>
      (match find_existing_mating sire dam db with
      | some existing =>
          let res := add_child_to_mating existing horseId db
          ((res.1.map HorseRelation.toData).toList, res.2)
      | none =>
          ([⟨sire, dam, "mating", some [horseId]⟩], db))
  | _, _ => ([], db)

/-- `SupabaseStorage.save_relations` (supabase_storage.py, lines 68-103):
per relation, a directed `(horse_a_id, horse_b_id, relation_type)` existence
check, then an insert of the clean four-column dict when absent. -/
def save_relations (relations : List RelationData) (db : RelationDB) :
    RelationDB :=
  relations.foldl (fun acc rel =>
    if acc.any (fun r =>
        r.horse_a_id = rel.horse_a_id && r.horse_b_id = rel.horse_b_id &&
        r.relation_type = rel.relation_type) then acc
    else acc ++ [⟨freshId acc, rel.horse_a_id, rel.horse_b_id,
      rel.relation_type, rel.children_ids⟩]) db

/-- The mating-edge part of one horse-scrape pass (`HorseScraper.scrape`,
horse_scraper.py lines 48-53): `create_mating_relations` followed by
persistence of the returned relations through `save_relations`.  The direct
sire/dam/bms edges the pass also stores are distinct `relation_type` rows and
are irrelevant to the mating-edge claim. -/
def processMating (db : RelationDB) (sireId damId horseId : String) :
    RelationDB :=
  let res := create_mating_relations (some sireId) (some damId) horseId db
  save_relations res.1 res.2

/-- The test for a mating edge over the unordered pair `{a, b}`. -/
def matingPred (a b : String) (r : HorseRelation) : Bool :=
  r.relation_type = "mating" &&
    ((r.horse_a_id = a && r.horse_b_id = b) ||
     (r.horse_a_id = b && r.horse_b_id = a))

/-- The number of mating edges a table holds for the unordered pair
`{a, b}`. -/
def matingCount (db : RelationDB) (a b : String) : Nat :=
  db.countP (matingPred a b)

/-- The specification's invariant: at most one mating edge per unordered
`{sire, dam}` pair. -/
def MatingUnique (db : RelationDB) : Prop :=
  ∀ a b, matingCount db a b ≤ 1

end PedigreeExtractor

/-! ## Pagination loops (race_scraper.py, jockey_scraper.py) -/

namespace RaceScraper

/-- The `while len(all_races) < limit` pagination loop of
`RaceScraper.scrape_race_list_by_conditions` (race_scraper.py, lines
166-199), with the external fetch-and-extract of one page abstracted as
`pages : Nat → List α`.  Returns the collected rows paired with the number of
loop iterations executed: the loop breaks on an empty page, truncates and
breaks on reaching `limit`, and otherwise advances to the next page. -/
def raceListLoop (pages : Nat → List α) (limit : Nat) (page : Nat)
    (allRaces : List α) : List α × Nat :=
  if allRaces.length < limit then
    let pageRaces := pages page
    if pageRaces.isEmpty then (allRaces, 1)
    else
      let all2 := allRaces ++ pageRaces
      if limit ≤ all2.length then (all2.take limit, 1)
      else
        let res := raceListLoop pages limit (page + 1) all2
        (res.1, res.2 + 1)
  else (allRaces, 0)
termination_by limit - allRaces.length
decreasing_by
  rename_i hlt hne hfull
  have h1 : allRaces.length < (allRaces ++ pages page).length := by
    simp only [List.length_append]
    have h2 : pages page ≠ [] := by
      simpa [pageRaces, List.isEmpty_iff] using hne
    have h3 : 0 < (pages page).length := List.length_pos.mpr h2
    omega
  simp only [not_le] at hfull
  omega

/-- `RaceScraper.scrape_race_list_by_conditions` enters its loop with
`page = 1` and `all_races = []`. -/
def scrape_race_list_by_conditions (pages : Nat → List α) (limit : Nat) :
    List α × Nat :=
  raceListLoop pages limit 1 []

end RaceScraper

namespace JockeyScraper

/-- The `while remaining > 0` pagination loop of
`JockeyScraper.scrape_jockeys` (jockey_scraper.py, lines 34-62), with
`_scrape_page` abstracted as `pages : Nat → List α`.  Per iteration: an empty
page breaks; otherwise up to `min(remaining, 100)` rows are taken, `remaining`
shrinks by the number taken, and a short page (under 100 rows) breaks.
Returns the collected rows paired with the number of iterations executed. -/
def jockeyLoop (pages : Nat → List α) (remaining : Nat) (page : Nat)
    (jockeys : List α) : List α × Nat :=
  if 0 < remaining then
    let pageLimit := min remaining 100
    let pageJockeys := pages page
    if pageJockeys.isEmpty then (jockeys, 1)
    else
      let taken := pageJockeys.take pageLimit
      let jockeys2 := jockeys ++ taken
      let remaining2 := remaining - taken.length
      if pageJockeys.length < 100 then (jockeys2, 1)
      else
        let res := jockeyLoop pages remaining2 (page + 1) jockeys2
        (res.1, res.2 + 1)
  else (jockeys, 0)
termination_by remaining
decreasing_by
  rename_i hpos hne _
  have h0 : pages page ≠ [] := by
    simpa [pageJockeys, List.isEmpty_iff] using hne
  have h1 : 0 < (pages page).length := List.length_pos.mpr h0
  have h2 : 0 < min remaining 100 := by omega
  have h3 : 0 < ((pages page).take (min remaining 100)).length := by
    simp only [List.length_take]
    omega
  omega

/-- `JockeyScraper.scrape_jockeys` enters its loop with `remaining = limit`,
`page = 1`, `jockeys = []`. -/
def scrape_jockeys (pages : Nat → List α) (limit : Nat) : List α × Nat :=
  jockeyLoop pages limit 1 []

end JockeyScraper

/-! ## The batch driver (race_scraper.py, scrape_and_store_races) -/

namespace RaceScraper

/-- The running tally of `scrape_and_store_races`. -/
structure BatchStats where
  total : Nat
  success : Nat
  skipped : Nat
  failed : Nat
  errors : List String
deriving DecidableEq, Repr

/-- One entry of the race list handed to `scrape_and_store_races`: a dict
whose `race_id` key may be missing (`race_info.get("race_id")`). -/
structure RaceListItem where
  race_id : Option String
deriving DecidableEq, Repr

/-- Python's tuple unpacking `race, results = race_data` applied to the
three-element value `scrape_race_detail` returns: unpacking a 3-tuple into
two targets unconditionally raises
`ValueError: too many values to unpack (expected 2)`. -/
def unpackPair3 (t : Race × List RaceResult × List RacePayout) :
    Except String (Race × List RaceResult) :=
  match t with
  | (_, _, _) => Except.error "too many values to unpack (expected 2)"

/-- One iteration of the `for i, race_info in enumerate(race_list, 1)` loop
of `RaceScraper.scrape_and_store_races` (race_scraper.py, lines 291-338),
threading the tally and the log of race ids actually persisted.  The
per-item `try/except` catches the `ValueError` from the two-target unpacking
at line 315 and turns it into a failed count plus an error string. -/
def storeStep (skipExisting : Bool) (checkExists : String → Bool)
    (detail : String → Option (Race × List RaceResult × List RacePayout))
    (insertOk : Race → List RaceResult → Bool)
    (state : BatchStats × List String) (item : RaceListItem) :
    BatchStats × List String :=
  let stats := state.1
  let persisted := state.2
  match item.race_id with
  | none => ({ stats with failed := stats.failed + 1 }, persisted)
  | some rid =>
      if skipExisting && checkExists rid then
        ({ stats with skipped := stats.skipped + 1 }, persisted)
      else
        match detail rid with
        | none =>
            ({ stats with
                failed := stats.failed + 1
                errors := stats.errors ++ ["Detail scraping failed: " ++ rid] },
              persisted)
        | some raceData =>
            match unpackPair3 raceData with
            | Except.error msg =>
                ({ stats with
                    failed := stats.failed + 1
                    errors := stats.errors ++
                      ["Unexpected error processing " ++ rid ++ ": " ++ msg] },
                  persisted)
            | Except.ok (race, results) =>
                if insertOk race results then
                  ({ stats with success := stats.success + 1 },
                    persisted ++ [rid])
                else
                  ({ stats with
                      failed := stats.failed + 1
                      errors := stats.errors ++
                        ["Database insert failed: " ++ rid] },
                    persisted)

/-- `RaceScraper.scrape_and_store_races` (race_scraper.py, lines 269-352):
fold the per-item step over the race list, starting from the zero tally with
`total = len(race_list)` and an empty persistence log. -/
def scrape_and_store_races (skipExisting : Bool)
    (checkExists : String → Bool)
    (detail : String → Option (Race × List RaceResult × List RacePayout))
    (insertOk : Race → List RaceResult → Bool)
    (raceList : List RaceListItem) : BatchStats × List String :=
  raceList.foldl (storeStep skipExisting checkExists detail insertOk)
    ({ total := raceList.length, success := 0, skipped := 0, failed := 0,
       errors := [] }, [])

end RaceScraper

/-! ## Theorems -/

/-- C2 (code bug evidence): the currency parser's actual values on the
specification's round-trip examples.  On `"17億5,655万円"` the man-part regex
`(\d{1,4})万円` cannot cross the thousands-separator comma, so the code reads
655 (not 5,655) and returns 170655 where its own docstring and the
specification expect 175655; the comma-free examples agree with the spec. -/
theorem parse_prize_spec_examples :
    FieldParser.parse_prize "17億5,655万円" = Except.ok 170655 ∧
    FieldParser.parse_prize "0万円" = Except.ok 0 ∧
    FieldParser.parse_prize "500万円" = Except.ok 500 := by
  refine ⟨?_, ?_, ?_⟩ <;> rfl

/-- C7 (code bug evidence): `parse_prize` is not exception-free.  On the
input `",万円"` the group `([\d,]+)` matches the bare comma, the comma
stripping leaves the empty string, and Python `int("")` raises `ValueError`
out of the parser — there is no try/except in `parse_prize`. -/
theorem parse_prize_comma_only_raises :
    FieldParser.parse_prize ",万円" =
      Except.error "ValueError: invalid literal for int: " := by rfl

/-- C3: the payout-combination validator implements the bet-type-specific
grammar — for 単勝 the combination "7" passes while "7-3" fails; for 三連単
"1 → 2 → 3" passes, "1-2-3" fails on the separator, "19 → 2 → 3" fails the
1-18 range; and on an otherwise-well-formed payout (valid race id, bet type
単勝 and combination "7"), the full validator reports no violation exactly
when the amount is positive and at most 999999999.99 and a present popularity
lies within [1, 99999], while an empty combination always reports one. -/
theorem payout_grammar_characterization :
    RaceDataValidator.validate_combination_format "単勝" "7" = [] ∧
    RaceDataValidator.validate_combination_format "単勝" "7-3" ≠ [] ∧
    RaceDataValidator.validate_combination_format "三連単" "1 → 2 → 3" = [] ∧
    RaceDataValidator.validate_combination_format "三連単" "1-2-3" ≠ [] ∧
    RaceDataValidator.validate_combination_format "三連単" "19 → 2 → 3" ≠ [] ∧
    (∀ (amount : Rat) (pop : Option Int),
      (RaceDataValidator.validate_race_payout
          ⟨"202301010101", "単勝", "7", amount, pop⟩ = [] ↔
        0 < amount ∧ amount ≤ (99999999999 : Rat) / 100 ∧
          (pop = none ∨ ∃ p, pop = some p ∧ 1 ≤ p ∧ p ≤ 99999)) ∧
      RaceDataValidator.validate_race_payout
        ⟨"202301010101", "単勝", "", amount, pop⟩ ≠ []) := by
  refine ⟨by decide, by decide, by decide, by decide, by decide, ?_⟩
  intro amount pop
  constructor
  · have hlen : "202301010101".length = 12 := by rfl
    have hmem : "単勝" ∈ RaceDataValidator.validBetTypes := by decide
    have hfmt : RaceDataValidator.validate_combination_format "単勝" "7" = [] := by
      decide
    have hstrip : ¬ pyStrip "7" = "" := by decide
    simp only [RaceDataValidator.validate_race_payout]
    norm_num [hlen, hmem, hfmt, hstrip]
    split_ifs with h1 h2 <;> cases pop <;> simp_all <;> split_ifs <;>
      simp_all <;> omega
  · simp [RaceDataValidator.validate_race_payout]

/-- C3, witness: the characterization applied at a concrete in-range payout. -/
theorem payout_grammar_characterization_witness :
    RaceDataValidator.validate_race_payout
      ⟨"202301010101", "単勝", "7", 100, some 1⟩ = [] :=
  ((payout_grammar_characterization.2.2.2.2.2 100 (some 1)).1).mpr
    ⟨by norm_num, by norm_num, Or.inr ⟨1, rfl, by norm_num, by norm_num⟩⟩

/-- C4: validation never blocks persistence.  The validators are total
functions into violation-string lists, and the validate-and-return tail of
`scrape_race_detail` passes the extracted data through unchanged — its first
component is the identity on the extraction result — while the violation
strings are only collected (logged), exactly the concatenation of the four
validators' outputs. -/
theorem validation_never_blocks :
    (∀ rd, (RaceScraper.scrape_race_detail_validate rd).1 = rd) ∧
    (∀ race results payouts,
      (RaceScraper.scrape_race_detail_validate (some (race, results, payouts))).2 =
        RaceDataValidator.validate_race race ++
        results.flatMap (fun r => RaceDataValidator.validate_race_result r) ++
        payouts.flatMap (fun p => RaceDataValidator.validate_race_payout p) ++
        (if payouts ≠ [] then
          RaceDataValidator.validate_payout_consistency payouts else [])) := by
  constructor
  · intro rd
    match rd with
    | none => rfl
    | some (race, results, payouts) => rfl
  · intro race results payouts
    rfl

/-- C8: the minimum-column guard.  A results-table row yields no extracted
result precisely when it has fewer than 15 cells; a row with exactly the
minimum 15 cells still yields a result, with every column beyond the minimum
degraded to its null/empty default. -/
theorem min_column_guard (cells : List RaceDetailExtractor.Cell)
    (rid : String) :
    (RaceDetailExtractor.extract_race_result_row cells rid = none ↔
      cells.length < 15) ∧
    (cells.length = 15 →
      ∃ r, RaceDetailExtractor.extract_race_result_row cells rid = some r ∧
        r.prize_money = none ∧ r.trainer_name = "" ∧ r.trainer_region = none ∧
        r.trainer_id = none ∧ r.owner_id = none ∧ r.owner_name = some "") := by
  constructor
  · constructor
    · intro h
      by_contra hge
      simp only [RaceDetailExtractor.extract_race_result_row, if_neg hge] at h
      exact Option.noConfusion h
    · intro h
      simp [RaceDetailExtractor.extract_race_result_row, h]
  · intro h15
    have hne : ¬ cells.length < 15 := by omega
    simp only [RaceDetailExtractor.extract_race_result_row, if_neg hne]
    refine ⟨_, rfl, ?_, ?_, ?_, ?_, ?_, ?_⟩
    all_goals simp [RaceDetailExtractor.extract_trainer_info,
      RaceDetailExtractor.extract_owner_info, h15]

/-- C8, witness: the guard applied to a concrete 15-cell row. -/
theorem min_column_guard_witness :
    ∃ r, RaceDetailExtractor.extract_race_result_row
        (List.replicate 15 (default : RaceDetailExtractor.Cell))
        "202301010101" = some r ∧
      r.prize_money = none ∧ r.trainer_name = "" ∧ r.trainer_region = none ∧
      r.trainer_id = none ∧ r.owner_id = none ∧ r.owner_name = some "" :=
  (min_column_guard (List.replicate 15 (default : RaceDetailExtractor.Cell))
    "202301010101").2 (by simp)

/-- C6 (counterexample): the ambiguous `waku` CSS class is not disambiguated
by the arrow glyph.  For the display text `"枠 1 → 2"`, which contains the
arrow → but not the label 枠単, the source resolves `waku` to 枠連 while the
specification's arrow rule would resolve it to 枠単. -/
theorem normalize_bet_type_arrow_cex :
    RaceDetailExtractor.normalize_bet_type "枠 1 → 2" ["waku"] = some "枠連" ∧
    RaceDetailExtractor.normalize_bet_type_specArrow "枠 1 → 2" ["waku"] =
      some "枠単" ∧
    containsSub (pyStrip "枠 1 → 2") "→" = true := by
  refine ⟨by rfl, by rfl, by rfl⟩

/-- Association-list lookup by first component misses absent keys. -/
theorem find?_assoc_none {l : List (String × String)} {k : String}
    (h : k ∉ l.map Prod.fst) : l.find? (fun e => e.1 = k) = none := by
  rw [List.find?_eq_none]
  intro e he hpe
  apply h
  have he1 : e.1 = k := by simpa using hpe
  rw [← he1]
  exact List.mem_map_of_mem Prod.fst he

/-- The CSS-class fallback loop yields nothing when no class is in the table. -/
theorem classLoop_none (clean : String) :
    ∀ cs : List String,
      (∀ c ∈ cs, c ∉ RaceDetailExtractor.classMapping.map Prod.fst) →
      RaceDetailExtractor.classLoop clean cs = none := by
  intro cs
  induction cs with
  | nil => intro _; rfl
  | cons c rest ih =>
    intro hcs
    have hc : c ∉ RaceDetailExtractor.classMapping.map Prod.fst :=
      hcs c (List.mem_cons_self c rest)
    simp only [RaceDetailExtractor.classLoop, find?_assoc_none hc,
      Option.map_none]
    exact ih (fun x hx => hcs x (List.mem_cons_of_mem _ hx))

/-- C6 (amended): bet-type resolution is exact text match first
(authoritative, regardless of the CSS classes), CSS-class fallback second;
the ambiguous `waku` class is disambiguated by whether the display text
contains the bracket-exacta label 枠単 (not the arrow glyph); text matching
neither mechanism yields no bet type, and a payout row whose bet type
resolves to none produces no payouts. -/
theorem normalize_bet_type_resolution :
    (∀ t cs, pyStrip t ∈ RaceDataValidator.validBetTypes →
      RaceDetailExtractor.normalize_bet_type t cs = some (pyStrip t)) ∧
    (∀ t, pyStrip t ∉ RaceDataValidator.validBetTypes →
      RaceDetailExtractor.normalize_bet_type t ["waku"] =
        (if containsSub (pyStrip t) "枠単" then some "枠単" else some "枠連")) ∧
    (∀ t cs, pyStrip t ∉ RaceDataValidator.validBetTypes →
      (∀ c ∈ cs, c ∉ RaceDetailExtractor.classMapping.map Prod.fst) →
      RaceDetailExtractor.normalize_bet_type t cs = none) ∧
    (∀ cells rid,
      RaceDetailExtractor.normalize_bet_type
          (pyStrip (cells.getD 0 default).text) (cells.getD 0 default).classes =
            none →
      RaceDetailExtractor.extract_payout_row cells rid = []) := by
  have htextkeys : RaceDetailExtractor.textMapping.map Prod.fst =
      RaceDataValidator.validBetTypes := rfl
  refine ⟨?_, ?_, ?_, ?_⟩
  · intro t cs hmem
    simp only [RaceDataValidator.validBetTypes, List.mem_cons,
      List.not_mem_nil, or_false] at hmem
    simp only [RaceDetailExtractor.normalize_bet_type]
    rcases hmem with h | h | h | h | h | h | h | h | h
    all_goals rw [h]
    all_goals rfl
  · intro t hnot
    have hkeys : pyStrip t ∉ RaceDetailExtractor.textMapping.map Prod.fst := by
      rw [htextkeys]
      exact hnot
    simp only [RaceDetailExtractor.normalize_bet_type, find?_assoc_none hkeys,
      Option.map_none]
    rfl
  · intro t cs hnot hcs
    have hkeys : pyStrip t ∉ RaceDetailExtractor.textMapping.map Prod.fst := by
      rw [htextkeys]
      exact hnot
    simp only [RaceDetailExtractor.normalize_bet_type, find?_assoc_none hkeys,
      Option.map_none]
    exact classLoop_none (pyStrip t) cs hcs
  · intro cells rid hnone
    simp only [RaceDetailExtractor.extract_payout_row]
    by_cases hlen : cells.length < 4
    · rw [if_pos hlen]
    · rw [if_neg hlen, hnone]

/-- C6, witness: the authoritative text match applied to a concrete row whose
CSS class disagrees with its label text. -/
theorem normalize_bet_type_resolution_witness :
    RaceDetailExtractor.normalize_bet_type "馬連" ["tan"] =
      some (pyStrip "馬連") :=
  normalize_bet_type_resolution.1 "馬連" ["tan"] (by decide)

/-- Round-half-even never rounds below the floor. -/
theorem halfEvenRound_lb (x : Rat) : ⌊x⌋ ≤ halfEvenRound x := by
  unfold halfEvenRound
  split_ifs <;> omega

/-- Round-half-even never rounds above the ceiling. -/
theorem halfEvenRound_ub (x : Rat) : halfEvenRound x ≤ ⌊x⌋ + 1 := by
  unfold halfEvenRound
  split_ifs <;> omega

/-- Round-half-even is monotone. -/
theorem halfEvenRound_mono {x y : Rat} (h : x ≤ y) :
    halfEvenRound x ≤ halfEvenRound y := by
  have hf : ⌊x⌋ ≤ ⌊y⌋ := Int.floor_le_floor h
  by_cases heq : ⌊x⌋ = ⌊y⌋
  · have hfr : x - ⌊x⌋ ≤ y - ⌊y⌋ := by
      rw [heq]
      linarith
    unfold halfEvenRound
    rw [heq]
    split_ifs with h1 h2 h3 h4 h5 h6 <;> try omega
    all_goals linarith
  · have hlt : ⌊x⌋ < ⌊y⌋ := lt_of_le_of_ne hf heq
    have h1 := halfEvenRound_ub x
    have h2 := halfEvenRound_lb y
    omega

/-- Rounding to two decimals is monotone. -/
theorem pyRound2_mono {x y : Rat} (h : x ≤ y) : pyRound2 x ≤ pyRound2 y := by
  unfold pyRound2
  have h1 : x * 100 ≤ y * 100 := by linarith
  have h2 : (halfEvenRound (x * 100) : Rat) ≤ (halfEvenRound (y * 100) : Rat) := by
    exact_mod_cast halfEvenRound_mono h1
  linarith

/-- C5: derived rates are computed, not scraped, and are mutually ordered.
After `update_stats`, for both `Trainer` and `Owner`: `win_rate` equals the
rounded `wins / total_races * 100` when `total_races > 0`; the three rates
satisfy `win_rate ≤ second_rate ≤ show_rate` when `total_races > 0` (the
counts are nested sums over one denominator and rounding is monotone); and
all three rates are 0 when `total_races = 0`. -/
theorem derived_rate_invariants :
    (∀ t : Trainer,
      (t.update_stats).win_rate =
        (if 0 < t.total_races then pyRound2 ((t.wins : Rat) / t.total_races * 100)
         else 0) ∧
      (0 < t.total_races →
        (t.update_stats).win_rate ≤ (t.update_stats).second_rate ∧
        (t.update_stats).second_rate ≤ (t.update_stats).show_rate) ∧
      (t.total_races = 0 →
        (t.update_stats).win_rate = 0 ∧ (t.update_stats).second_rate = 0 ∧
        (t.update_stats).show_rate = 0)) ∧
    (∀ o : Owner,
      (o.update_stats).win_rate =
        (if 0 < o.total_races then pyRound2 ((o.wins : Rat) / o.total_races * 100)
         else 0) ∧
      (0 < o.total_races →
        (o.update_stats).win_rate ≤ (o.update_stats).second_rate ∧
        (o.update_stats).second_rate ≤ (o.update_stats).show_rate) ∧
      (o.total_races = 0 →
        (o.update_stats).win_rate = 0 ∧ (o.update_stats).second_rate = 0 ∧
        (o.update_stats).show_rate = 0)) := by
  constructor
  · intro t
    refine ⟨rfl, ?_, ?_⟩
    · intro hpos
      have hT : (0 : Rat) < t.total_races := by exact_mod_cast hpos
      constructor
      · show t.calculate_win_rate ≤ t.calculate_second_rate
        unfold Trainer.calculate_win_rate Trainer.calculate_second_rate
        rw [if_pos hpos, if_pos hpos]
        apply pyRound2_mono
        have hle : (t.wins : Rat) ≤ ((t.wins + t.seconds : Nat) : Rat) := by
          exact_mod_cast Nat.le_add_right _ _
        have hdiv := (div_le_div_iff_of_pos_right hT).mpr hle
        linarith
      · show t.calculate_second_rate ≤ t.calculate_show_rate
        unfold Trainer.calculate_second_rate Trainer.calculate_show_rate
        rw [if_pos hpos, if_pos hpos]
        apply pyRound2_mono
        have hle : ((t.wins + t.seconds : Nat) : Rat) ≤
            ((t.wins + t.seconds + t.thirds : Nat) : Rat) := by
          exact_mod_cast Nat.le_add_right _ _
        have hdiv := (div_le_div_iff_of_pos_right hT).mpr hle
        linarith
    · intro hz
      unfold Trainer.update_stats Trainer.calculate_win_rate
        Trainer.calculate_second_rate Trainer.calculate_show_rate
      simp [hz]
  · intro o
    refine ⟨rfl, ?_, ?_⟩
    · intro hpos
      have hT : (0 : Rat) < o.total_races := by exact_mod_cast hpos
      constructor
      · show o.calculate_win_rate ≤ o.calculate_second_rate
        unfold Owner.calculate_win_rate Owner.calculate_second_rate
        rw [if_pos hpos, if_pos hpos]
        apply pyRound2_mono
        have hle : (o.wins : Rat) ≤ ((o.wins + o.seconds : Nat) : Rat) := by
          exact_mod_cast Nat.le_add_right _ _
        have hdiv := (div_le_div_iff_of_pos_right hT).mpr hle
        linarith
      · show o.calculate_second_rate ≤ o.calculate_show_rate
        unfold Owner.calculate_second_rate Owner.calculate_show_rate
        rw [if_pos hpos, if_pos hpos]
        apply pyRound2_mono
        have hle : ((o.wins + o.seconds : Nat) : Rat) ≤
            ((o.wins + o.seconds + o.thirds : Nat) : Rat) := by
          exact_mod_cast Nat.le_add_right _ _
        have hdiv := (div_le_div_iff_of_pos_right hT).mpr hle
        linarith
    · intro hz
      unfold Owner.update_stats Owner.calculate_win_rate
        Owner.calculate_second_rate Owner.calculate_show_rate
      simp [hz]

/-- C5, witness: the rate ordering applied to a concrete trainer with
1 win, 1 second and 1 third over 4 races. -/
theorem derived_rate_invariants_witness :
    0 < (⟨"00001", "n", 4, 1, 1, 1, 0, 0, 0⟩ : Trainer).total_races ∧
    ((⟨"00001", "n", 4, 1, 1, 1, 0, 0, 0⟩ : Trainer).update_stats).win_rate ≤
      ((⟨"00001", "n", 4, 1, 1, 1, 0, 0, 0⟩ : Trainer).update_stats).second_rate :=
  ⟨by decide,
    ((derived_rate_invariants.1 ⟨"00001", "n", 4, 1, 1, 1, 0, 0, 0⟩).2.1
      (by decide)).1⟩

namespace PedigreeExtractor

/-- The head of a filtered list is a member satisfying the filter. -/
theorem head?_filter_mem {p : HorseRelation → Bool} {l : List HorseRelation}
    {m : HorseRelation} (h : (l.filter p).head? = some m) :
    m ∈ l ∧ p m = true := by
  have hm : m ∈ l.filter p := by
    cases hf : l.filter p with
    | nil => rw [hf] at h; exact absurd h (by simp)
    | cons a t =>
        rw [hf] at h
        simp only [List.head?_cons, Option.some.injEq] at h
        rw [← h] at *
        exact hf ▸ List.mem_cons_self a t
  exact ⟨(List.mem_filter.mp hm).1, (List.mem_filter.mp hm).2⟩

/-- A found mating edge is a stored row matching one of the two orders. -/
theorem find_existing_some {sire dam : String} {db : RelationDB}
    {m : HorseRelation} (h : find_existing_mating sire dam db = some m) :
    m ∈ db ∧ (isMatingFor sire dam m = true ∨ isMatingFor dam sire m = true) := by
  unfold find_existing_mating at h
  cases hf : (db.filter (isMatingFor sire dam)).head? with
  | some r =>
      rw [hf] at h
      obtain ⟨hmem, hp⟩ := head?_filter_mem hf
      cases h
      exact ⟨hmem, Or.inl hp⟩
  | none =>
      rw [hf] at h
      obtain ⟨hmem, hp⟩ := head?_filter_mem h
      exact ⟨hmem, Or.inr hp⟩

/-- A failed mating search means no stored row matches either order. -/
theorem find_existing_none {sire dam : String} {db : RelationDB}
    (h : find_existing_mating sire dam db = none) :
    ∀ r ∈ db, isMatingFor sire dam r = false ∧ isMatingFor dam sire r = false := by
  unfold find_existing_mating at h
  cases hf : (db.filter (isMatingFor sire dam)).head? with
  | some r => rw [hf] at h; exact absurd h (by simp)
  | none =>
      rw [hf] at h
      have h1 : db.filter (isMatingFor sire dam) = [] :=
        List.head?_eq_none_iff.mp hf
      have h2 : db.filter (isMatingFor dam sire) = [] :=
        List.head?_eq_none_iff.mp h
      intro r hr
      constructor
      · have := List.filter_eq_nil_iff.mp h1 r hr
        simpa using this
      · have := List.filter_eq_nil_iff.mp h2 r hr
        simpa using this

/-- Updating one row's `children_ids` never changes a mating-edge count. -/
theorem matingCount_update (db : RelationDB) (i : Nat)
    (x : Option (List String)) (a b : String) :
    matingCount (db.map (fun r =>
      if r.id = i then { r with children_ids := x } else r)) a b =
      matingCount db a b := by
  unfold matingCount
  rw [List.countP_map]
  apply List.countP_congr
  intro r _
  by_cases h : r.id = i <;> simp [h, Function.comp, matingPred]

/-- Mating-edge counts add over concatenation. -/
theorem matingCount_append (db1 db2 : RelationDB) (a b : String) :
    matingCount (db1 ++ db2) a b = matingCount db1 a b + matingCount db2 a b :=
  List.countP_append _ _ _

/-- `save_relations` on one relation: a directed existence check, then an
insert when absent (projection form). -/
theorem save_relations_singleton (rel : RelationData) (db : RelationDB) :
    save_relations [rel] db =
      if (db.any fun r =>
          r.horse_a_id = rel.horse_a_id && r.horse_b_id = rel.horse_b_id &&
          r.relation_type = rel.relation_type) = true then db
      else db ++ [⟨freshId db, rel.horse_a_id, rel.horse_b_id,
        rel.relation_type, rel.children_ids⟩] := rfl

/-- `save_relations` on one relation (constructor form). -/
theorem save_relations_singleton2 (a0 b0 t0 : String)
    (c0 : Option (List String)) (db : RelationDB) :
    save_relations [⟨a0, b0, t0, c0⟩] db =
      if (db.any fun r =>
          r.horse_a_id = a0 && r.horse_b_id = b0 &&
          r.relation_type = t0) = true then db
      else db ++ [⟨freshId db, a0, b0, t0, c0⟩] := rfl

/-- One mating pass preserves the at-most-one-edge-per-unordered-pair
invariant. -/
theorem processMating_preserves_unique (db : RelationDB) (A B Y : String)
    (hU : MatingUnique db) : MatingUnique (processMating db A B Y) := by
  intro a b
  unfold processMating create_mating_relations
  dsimp only
  cases hfind : find_existing_mating A B db with
  | some m =>
    obtain ⟨hmem, hmat⟩ := find_existing_some hfind
    unfold add_child_to_mating
    dsimp only
    by_cases hin : Y ∈ m.children_ids.getD []
    · rw [if_pos hin]
      have hany : (db.any fun r =>
          r.horse_a_id = (HorseRelation.toData m).horse_a_id &&
          r.horse_b_id = (HorseRelation.toData m).horse_b_id &&
          r.relation_type = (HorseRelation.toData m).relation_type) = true :=
        List.any_eq_true.mpr ⟨m, hmem, by simp [HorseRelation.toData]⟩
      rw [show (Option.map HorseRelation.toData (some m)).toList =
        [HorseRelation.toData m] from rfl]
      rw [save_relations_singleton, if_pos hany]
      exact hU a b
    · rw [if_neg hin]
      have hid : (db.any fun r => r.id = m.id) = true :=
        List.any_eq_true.mpr ⟨m, hmem, by simp⟩
      rw [if_pos hid]
      dsimp only
      have hmem2 := List.mem_map_of_mem (fun r => if r.id = m.id then
        { r with children_ids := some (m.children_ids.getD [] ++ [Y]) }
        else r) hmem
      dsimp only at hmem2
      rw [if_pos rfl] at hmem2
      rw [show ∀ x : HorseRelation, (Option.map HorseRelation.toData
        (some x)).toList = [HorseRelation.toData x] from fun x => rfl]
      rw [save_relations_singleton,
        if_pos (List.any_eq_true.mpr ⟨_, hmem2, by simp [HorseRelation.toData]⟩),
        matingCount_update]
      exact hU a b
  | none =>
    have hnone := find_existing_none hfind
    dsimp only
    have hany : (db.any fun r =>
        r.horse_a_id = A && r.horse_b_id = B &&
        r.relation_type = "mating") = false := by
      rw [Bool.eq_false_iff]
      intro hc
      rw [List.any_eq_true] at hc
      obtain ⟨r, hr, hpr⟩ := hc
      have h1 := (hnone r hr).1
      unfold isMatingFor at h1
      rw [hpr] at h1
      exact Bool.noConfusion h1
    rw [save_relations_singleton2,
      if_neg (by rw [hany]; exact Bool.false_ne_true)]
    rw [matingCount_append]
    by_cases hpred : matingPred a b ⟨freshId db, A, B, "mating", some [Y]⟩ = true
    · have hz : matingCount db a b = 0 := by
        unfold matingCount
        rw [List.countP_eq_zero]
        intro r hr
        have h1 := (hnone r hr).1
        have h2 := (hnone r hr).2
        unfold matingPred at hpred ⊢
        simp only [Bool.and_eq_true, Bool.or_eq_true,
          decide_eq_true_eq] at hpred ⊢
        intro hcon
        obtain ⟨hm, hcases⟩ := hcon
        obtain ⟨-, hAB⟩ := hpred
        unfold isMatingFor at h1 h2
        rcases hAB with ⟨hAa, hBb⟩ | ⟨hAb, hBa⟩ <;>
          rcases hcases with ⟨h3, h4⟩ | ⟨h3, h4⟩ <;>
            simp_all
      have hone : matingCount [⟨freshId db, A, B, "mating", some [Y]⟩] a b ≤ 1 := by
        unfold matingCount
        rw [List.countP_cons]
        simp only [List.countP_nil, Nat.zero_add]
        split_ifs <;> omega
      omega
    · have hf : matingPred a b ⟨freshId db, A, B, "mating", some [Y]⟩ = false :=
        Bool.eq_false_iff.mpr hpred
      have hone : matingCount [⟨freshId db, A, B, "mating", some [Y]⟩] a b = 0 := by
        unfold matingCount
        rw [List.countP_cons]
        simp [hf]
      have hdb := hU a b
      omega

/-- Merging a new child into an existing mating edge, concretely: the second
child joins the child list, and reprocessing is a no-op. -/
theorem mating_merge_scenario (A B X Y : String) (i : Nat) (hXY : Y ≠ X) :
    processMating [⟨i, A, B, "mating", some [X]⟩] A B Y =
      [⟨i, A, B, "mating", some [X, Y]⟩] ∧
    processMating [⟨i, A, B, "mating", some [X, Y]⟩] A B Y =
      [⟨i, A, B, "mating", some [X, Y]⟩] := by
  constructor
  · simp [processMating, create_mating_relations, find_existing_mating,
      isMatingFor, add_child_to_mating, save_relations, HorseRelation.toData,
      hXY]
  · simp [processMating, create_mating_relations, find_existing_mating,
      isMatingFor, add_child_to_mating, save_relations, HorseRelation.toData]

end PedigreeExtractor

/-- C1: the mating-edge merge is a conflict-free, idempotent union.  Given a
table holding one mating edge (sire `A`, dam `B`, children `[X]`), processing
a new horse `Y` with the same parents yields exactly that edge with children
`[X, Y]` and a mating-count of one for the unordered pair `{A, B}`;
reprocessing `Y` leaves the table unchanged; and every mating pass preserves
the at-most-one-mating-edge-per-unordered-pair invariant on arbitrary
tables. -/
theorem mating_edge_merge :
    (∀ (A B X Y : String) (i : Nat), Y ≠ X →
      PedigreeExtractor.processMating [⟨i, A, B, "mating", some [X]⟩] A B Y =
        [⟨i, A, B, "mating", some [X, Y]⟩] ∧
      PedigreeExtractor.processMating [⟨i, A, B, "mating", some [X, Y]⟩] A B Y =
        [⟨i, A, B, "mating", some [X, Y]⟩] ∧
      PedigreeExtractor.matingCount [⟨i, A, B, "mating", some [X, Y]⟩] A B = 1) ∧
    (∀ (db : RelationDB) (A B Y : String), PedigreeExtractor.MatingUnique db →
      PedigreeExtractor.MatingUnique (PedigreeExtractor.processMating db A B Y)) := by
  constructor
  · intro A B X Y i hXY
    obtain ⟨h1, h2⟩ := PedigreeExtractor.mating_merge_scenario A B X Y i hXY
    refine ⟨h1, h2, ?_⟩
    unfold PedigreeExtractor.matingCount
    rw [List.countP_cons]
    simp [PedigreeExtractor.matingPred]
  · intro db A B Y hU
    exact PedigreeExtractor.processMating_preserves_unique db A B Y hU

/-- C1, witness: the merge applied at concrete sire/dam/children ids, with
the invariant preserved starting from the empty table. -/
theorem mating_edge_merge_witness :
    PedigreeExtractor.processMating
        [⟨0, "sireA", "damB", "mating", some ["x1"]⟩] "sireA" "damB" "y2" =
      [⟨0, "sireA", "damB", "mating", some ["x1", "y2"]⟩] ∧
    PedigreeExtractor.MatingUnique
      (PedigreeExtractor.processMating [] "sireA" "damB" "y2") :=
  ⟨(mating_edge_merge.1 "sireA" "damB" "x1" "y2" 0 (by decide)).1,
    mating_edge_merge.2 [] "sireA" "damB" "y2"
      (fun a b => by simp [PedigreeExtractor.matingCount])⟩

/-- The race-list pagination loop executes at most `limit - |acc|`
iterations: each continuing iteration strictly grows the accumulator. -/
theorem raceListLoop_steps_le {α : Type} (pages : Nat → List α) (limit : Nat) :
    ∀ (n : Nat) (acc : List α) (page : Nat), limit - acc.length ≤ n →
      (RaceScraper.raceListLoop pages limit page acc).2 ≤ limit - acc.length := by
  intro n
  induction n with
  | zero =>
    intro acc page h
    have hge : ¬ acc.length < limit := by omega
    rw [RaceScraper.raceListLoop, if_neg hge]
    exact Nat.zero_le _
  | succ n ih =>
    intro acc page h
    rw [RaceScraper.raceListLoop]
    by_cases hlt : acc.length < limit
    · rw [if_pos hlt]
      by_cases hempty : (pages page).isEmpty
      · rw [if_pos hempty]
        show 1 ≤ limit - acc.length
        omega
      · rw [if_neg hempty]
        by_cases hfull : limit ≤ (acc ++ pages page).length
        · rw [if_pos hfull]
          show 1 ≤ limit - acc.length
          omega
        · rw [if_neg hfull]
          have hne : pages page ≠ [] := by
            intro hh
            rw [hh] at hempty
            simp at hempty
          have hpos : 0 < (pages page).length := List.length_pos.mpr hne
          have hlen : (acc ++ pages page).length = acc.length + (pages page).length :=
            List.length_append _ _
          have hrec := ih (acc ++ pages page) (page + 1) (by omega)
          show (RaceScraper.raceListLoop pages limit (page + 1) (acc ++ pages page)).2 + 1 ≤
            limit - acc.length
          omega
    · rw [if_neg hlt]
      show 0 ≤ limit - acc.length
      omega

/-- The jockey pagination loop executes at most `remaining` iterations: each
continuing iteration strictly shrinks `remaining`. -/
theorem jockeyLoop_steps_le {α : Type} (pages : Nat → List α) :
    ∀ (n remaining : Nat) (acc : List α) (page : Nat), remaining ≤ n →
      (JockeyScraper.jockeyLoop pages remaining page acc).2 ≤ remaining := by
  intro n
  induction n with
  | zero =>
    intro remaining acc page h
    have h0 : remaining = 0 := by omega
    subst h0
    rw [JockeyScraper.jockeyLoop]
    simp
  | succ n ih =>
    intro remaining acc page h
    rw [JockeyScraper.jockeyLoop]
    by_cases hpos : 0 < remaining
    · rw [if_pos hpos]
      by_cases hempty : (pages page).isEmpty
      · rw [if_pos hempty]
        show 1 ≤ remaining
        omega
      · rw [if_neg hempty]
        by_cases hshort : (pages page).length < 100
        · rw [if_pos hshort]
          show 1 ≤ remaining
          omega
        · rw [if_neg hshort]
          have hne : pages page ≠ [] := by
            intro hh
            rw [hh] at hempty
            simp at hempty
          have hpl : 0 < (pages page).length := List.length_pos.mpr hne
          have htk : ((pages page).take (min remaining 100)).length =
              min (min remaining 100) (pages page).length := List.length_take _ _
          have htkpos : 0 < ((pages page).take (min remaining 100)).length := by
            rw [htk]
            omega
          have hrec := ih (remaining - ((pages page).take (min remaining 100)).length)
            (acc ++ (pages page).take (min remaining 100)) (page + 1) (by omega)
          show (JockeyScraper.jockeyLoop pages
              (remaining - ((pages page).take (min remaining 100)).length) (page + 1)
              (acc ++ (pages page).take (min remaining 100))).2 + 1 ≤ remaining
          omega
    · rw [if_neg hpos]
      show 0 ≤ remaining
      omega

/-- C9: the pagination loops terminate independently of the remote server.
For every positive requested limit and every (arbitrary) page-result
sequence, both list-scraping loops run at most `limit` iterations, and each
breaks immediately on a page that yields zero rows. -/
theorem pagination_loops_terminate {α β : Type} (pages : Nat → List α)
    (pagesJ : Nat → List β) (limit : Nat) (hpos : 0 < limit) :
    (RaceScraper.scrape_race_list_by_conditions pages limit).2 ≤ limit ∧
    (JockeyScraper.scrape_jockeys pagesJ limit).2 ≤ limit ∧
    (∀ page acc, acc.length < limit → pages page = [] →
      RaceScraper.raceListLoop pages limit page acc = (acc, 1)) ∧
    (∀ r page acc, 0 < r → pagesJ page = [] →
      JockeyScraper.jockeyLoop pagesJ r page acc = (acc, 1)) := by
  refine ⟨?_, ?_, ?_, ?_⟩
  · have h := raceListLoop_steps_le pages limit limit [] 1 (by simp)
    simpa [RaceScraper.scrape_race_list_by_conditions] using h
  · exact jockeyLoop_steps_le pagesJ limit limit [] 1 le_rfl
  · intro page acc hlt hempty
    rw [RaceScraper.raceListLoop, if_pos hlt]
    simp [hempty]
  · intro r page acc hr hempty
    rw [JockeyScraper.jockeyLoop, if_pos hr]
    simp [hempty]

/-- C9, witness: the iteration bounds at limit 2 over constant one-row
pages. -/
theorem pagination_loops_terminate_witness :
    (RaceScraper.scrape_race_list_by_conditions
      (fun _ => (["row"] : List String)) 2).2 ≤ 2 ∧
    (JockeyScraper.scrape_jockeys (fun _ => (["j"] : List String)) 2).2 ≤ 2 :=
  ⟨(pagination_loops_terminate (fun _ => (["row"] : List String))
      (fun _ => (["j"] : List String)) 2 (by norm_num)).1,
    (pagination_loops_terminate (fun _ => (["row"] : List String))
      (fun _ => (["j"] : List String)) 2 (by norm_num)).2.1⟩

namespace RaceScraper

/-- One batch step always increments exactly one of skipped/failed, never
success, and never persists anything. -/
theorem storeStep_props (skipE : Bool) (checkE : String → Bool)
    (detail : String → Option (Race × List RaceResult × List RacePayout))
    (insertOk : Race → List RaceResult → Bool)
    (state : BatchStats × List String) (item : RaceListItem) :
    (storeStep skipE checkE detail insertOk state item).1.success =
      state.1.success ∧
    (storeStep skipE checkE detail insertOk state item).2 = state.2 ∧
    (storeStep skipE checkE detail insertOk state item).1.total =
      state.1.total ∧
    (storeStep skipE checkE detail insertOk state item).1.skipped +
      (storeStep skipE checkE detail insertOk state item).1.failed =
      state.1.skipped + state.1.failed + 1 := by
  obtain ⟨stats, persisted⟩ := state
  obtain ⟨orid⟩ := item
  rcases orid with _ | rid
  · refine ⟨rfl, rfl, rfl, ?_⟩
    show stats.skipped + (stats.failed + 1) = stats.skipped + stats.failed + 1
    omega
  · simp only [storeStep]
    split
    · refine ⟨rfl, rfl, rfl, ?_⟩
      show stats.skipped + 1 + stats.failed = stats.skipped + stats.failed + 1
      omega
    · split
      · refine ⟨rfl, rfl, rfl, ?_⟩
        show stats.skipped + (stats.failed + 1) = stats.skipped + stats.failed + 1
        omega
      · simp only [unpackPair3]
        refine ⟨trivial, trivial, trivial, ?_⟩
        show stats.skipped + (stats.failed + 1) = stats.skipped + stats.failed + 1
        omega

/-- Folding the batch step over a race list: success and the persistence log
never change, and skipped plus failed grows by exactly the list length. -/
theorem storeFold_props (skipE : Bool) (checkE : String → Bool)
    (detail : String → Option (Race × List RaceResult × List RacePayout))
    (insertOk : Race → List RaceResult → Bool) :
    ∀ (raceList : List RaceListItem) (state : BatchStats × List String),
      (raceList.foldl (storeStep skipE checkE detail insertOk) state).1.success =
        state.1.success ∧
      (raceList.foldl (storeStep skipE checkE detail insertOk) state).2 =
        state.2 ∧
      (raceList.foldl (storeStep skipE checkE detail insertOk) state).1.total =
        state.1.total ∧
      (raceList.foldl (storeStep skipE checkE detail insertOk) state).1.skipped +
        (raceList.foldl (storeStep skipE checkE detail insertOk) state).1.failed =
        state.1.skipped + state.1.failed + raceList.length := by
  intro raceList
  induction raceList with
  | nil => intro state; exact ⟨rfl, rfl, rfl, by simp⟩
  | cons item rest ih =>
    intro state
    have hstep := storeStep_props skipE checkE detail insertOk state item
    have hrest := ih (storeStep skipE checkE detail insertOk state item)
    simp only [List.foldl_cons, List.length_cons]
    obtain ⟨hs1, hs2, hs3, hs4⟩ := hstep
    obtain ⟨hr1, hr2, hr3, hr4⟩ := hrest
    refine ⟨hr1.trans hs1, hr2.trans hs2, hr3.trans hs3, ?_⟩
    omega

/-- A qualifying item — present race id, not skipped, detail returning its
three-element tuple — lands in the failed tally with the unpack error
recorded and nothing persisted. -/
theorem storeStep_qualifying (skipE : Bool) (checkE : String → Bool)
    (detail : String → Option (Race × List RaceResult × List RacePayout))
    (insertOk : Race → List RaceResult → Bool)
    (state : BatchStats × List String) (item : RaceListItem) (rid : String)
    (t : Race × List RaceResult × List RacePayout)
    (hrid : item.race_id = some rid)
    (hskip : ¬ (skipE && checkE rid) = true)
    (hdet : detail rid = some t) :
    (storeStep skipE checkE detail insertOk state item).1.failed =
      state.1.failed + 1 ∧
    (storeStep skipE checkE detail insertOk state item).2 = state.2 ∧
    (storeStep skipE checkE detail insertOk state item).1.errors =
      state.1.errors ++ ["Unexpected error processing " ++ rid ++ ": " ++
        "too many values to unpack (expected 2)"] := by
  obtain ⟨stats, persisted⟩ := state
  obtain ⟨orid⟩ := item
  simp only [RaceListItem.race_id] at hrid
  subst hrid
  unfold storeStep
  dsimp only
  rw [if_neg hskip, hdet]
  obtain ⟨race, results, payouts⟩ := t
  simp only [unpackPair3]
  simp

end RaceScraper

/-- C10: in `scrape_and_store_races`, every item whose race id is present,
which is not skipped as existing, and for which `scrape_race_detail` returns
its three-element (race, results, payouts) value, is recorded in the failed
tally with the `ValueError` from the two-target unpacking captured as an
error string, and nothing is persisted for it; the batch still terminates
with a full tally in which success can never grow (the insert path is
unreachable for three-element returns), so success stays 0, the persistence
log stays empty, and skipped plus failed accounts for every item. -/
theorem batch_three_tuple_unpacking (skipE : Bool) (checkE : String → Bool)
    (detail : String → Option (Race × List RaceResult × List RacePayout))
    (insertOk : Race → List RaceResult → Bool)
    (raceList : List RaceScraper.RaceListItem) :
    ((RaceScraper.scrape_and_store_races skipE checkE detail insertOk
        raceList).1.total = raceList.length ∧
      (RaceScraper.scrape_and_store_races skipE checkE detail insertOk
        raceList).1.success = 0 ∧
      (RaceScraper.scrape_and_store_races skipE checkE detail insertOk
        raceList).2 = [] ∧
      (RaceScraper.scrape_and_store_races skipE checkE detail insertOk
        raceList).1.skipped +
        (RaceScraper.scrape_and_store_races skipE checkE detail insertOk
          raceList).1.failed = raceList.length) ∧
    (∀ (state : RaceScraper.BatchStats × List String)
        (item : RaceScraper.RaceListItem) (rid : String)
        (t : Race × List RaceResult × List RacePayout),
      item.race_id = some rid → ¬ (skipE && checkE rid) = true →
      detail rid = some t →
      (RaceScraper.storeStep skipE checkE detail insertOk state item).1.failed =
        state.1.failed + 1 ∧
      (RaceScraper.storeStep skipE checkE detail insertOk state item).2 =
        state.2 ∧
      (RaceScraper.storeStep skipE checkE detail insertOk state item).1.errors =
        state.1.errors ++ ["Unexpected error processing " ++ rid ++ ": " ++
          "too many values to unpack (expected 2)"]) := by
  constructor
  · have h := RaceScraper.storeFold_props skipE checkE detail insertOk raceList
      ({ total := raceList.length, success := 0, skipped := 0, failed := 0,
         errors := [] }, [])
    obtain ⟨h1, h2, h3, h4⟩ := h
    exact ⟨h3, h1, h2, by simpa using h4⟩
  · intro state item rid t hrid hskip hdet
    exact RaceScraper.storeStep_qualifying skipE checkE detail insertOk state
      item rid t hrid hskip hdet

/-- C10, witness: one qualifying item, concretely — the failed tally
increments and nothing is persisted. -/
theorem batch_three_tuple_unpacking_witness :
    (RaceScraper.storeStep false (fun _ => false)
      (fun _ => some (⟨"202301010101", "2023-01-01", "東京", 11, "race",
        1600, "芝", 16, none, none, none, none, none, none, none, none, none,
        none, none, none⟩, [], []))
      (fun _ _ => true)
      ({ total := 1, success := 0, skipped := 0, failed := 0, errors := [] }, [])
      ⟨some "202301010101"⟩).1.failed = 0 + 1 :=
  ((batch_three_tuple_unpacking false (fun _ => false)
    (fun _ => some (⟨"202301010101", "2023-01-01", "東京", 11, "race",
      1600, "芝", 16, none, none, none, none, none, none, none, none, none,
      none, none, none⟩, [], []))
    (fun _ _ => true) []).2
    ({ total := 1, success := 0, skipped := 0, failed := 0, errors := [] }, [])
    ⟨some "202301010101"⟩ "202301010101" _ rfl (by simp) rfl).1

end Stallion
